import Mathlib

/-!
Shallow embedding of the discovery-and-topology engine of noson's
`System` class (sonossystem.cpp): the SSDP discovery response parser of
`FindDeviceDescription`, the `Discover` control flow, the `ConnectZone`
overloads, the zone-list accessors and `HandleEventMessage`.

External collaborators (sockets, URIParser, the event handler, the
ZoneGroupTopology accessors, the Player session) are represented by
oracle inputs or plain data fields; everything the claims depend on is
translated from the C++ in sonossystem.cpp.
-/

set_option maxRecDepth 8000

namespace Noson

/-- Whitespace as classified by C's isspace, used by sscanf directives. -/
def isCSpace (c : Char) : Bool :=
  c == ' ' || c == '\t' || c == '\n' || c == Char.ofNat 11 || c == Char.ofNat 12 || c == '\r'

/-- Parse a nonempty run of decimal digits (the digits consumed by %d). -/
def parseDigits (cs : List Char) : Option Nat :=
  let ds := cs.takeWhile Char.isDigit
  if ds.isEmpty then none
  else some (ds.foldl (fun a c => a * 10 + (c.toNat - 48)) 0)

/-- The %d directive: skip whitespace, optional sign, then digits. -/
def parseCInt (cs : List Char) : Option Int :=
  let rest := cs.dropWhile isCSpace
  match rest with
  | '-' :: tl => (parseDigits tl).map (fun n => -(n : Int))
  | '+' :: tl => (parseDigits tl).map (fun n => (n : Int))
  | _ => (parseDigits rest).map (fun n => (n : Int))

/-- Embeds sscanf(line, "%*s %d", &status): skip the first token, then
parse a decimal integer; `some v` exactly when sscanf returns 1. -/
def scanStatus (cs : List Char) : Option Int :=
  parseCInt ((cs.dropWhile isCSpace).dropWhile (fun c => !(isCSpace c)))

/-- The status == 200 test applied to a status line's characters. -/
def statusIs200 (cs : List Char) : Bool := scanStatus cs == some 200

/-- The four bytes compared by memcmp(line, four-byte HTTP literal, 4). -/
def httpD : List Char := ("HTTP").data

/-- A line that the parser treats as a successful status line: length 15,
begins with the HTTP literal, and its second token parses as 200. -/
def isStatus200 (s : String) : Bool :=
  decide (s.data.length = 15 ∧ s.data.take 4 = httpD) && statusIs200 s.data

/-- strchr(line, colon): index of the first colon, if any. -/
def strchrIdx : List Char → Option Nat
  | [] => none
  | c :: cs => if c = ':' then some 0 else (strchrIdx cs).map (fun n => n + 1)

/-- The NUL byte terminating a C string. -/
def nulC : Char := Char.ofNat 0

/-- DISCOVER_ST, the expected search target. -/
def stTarget : String := "urn:schemas-upnp-org:device:ZonePlayer:1"

/-- memcmp over NUL-terminated buffers compared on their first n bytes;
a read past a buffer's end is modelled by List.take (every comparison the
code performs is decided within the valid bytes, see stMatch_iff). -/
def memcmpEq (a b : List Char) (n : Nat) : Bool := a.take n == b.take n

/-- The ST header comparison the code performs: value_len equals the
value's length plus one (the terminating NUL is included in the compare)
against the DISCOVER_ST literal. -/
def stMatch (v : List Char) : Bool :=
  memcmpEq (v ++ [nulC]) (stTarget.data ++ [nulC]) (v.length + 1)

/-- toupper on an ASCII character. -/
def cToUpper (c : Char) : Char :=
  if 'a' ≤ c ∧ c ≤ 'z' then Char.ofNat (c.toNat - 32) else c

/-- Parser state of FindDeviceDescription: the `_context` bitmask
(bit 0x1 = success status line seen, 0x2 = ST matched, 0x4 = SERVER seen,
0x8 = LOCATION seen) and the url captured from the last LOCATION header. -/
structure DCtx where
  context : Nat
  url : String
deriving DecidableEq

/-- Processing of one header line by the body of the inner read loop of
FindDeviceDescription (sonossystem.cpp lines 200-277). -/
def stepLine (st : DCtx) (s : String) : DCtx :=
  let cs := s.data
  let len := cs.length
  if len = 15 ∧ cs.take 4 = httpD then
    if statusIs200 cs then ⟨1, st.url⟩ else ⟨0, st.url⟩
  else if st.context ≠ 0 then
    match strchrIdx cs with
    | some c =>
      let tokenLen := min c 20
      if tokenLen ≠ 0 then
        let token := (cs.take tokenLen).map cToUpper
        let value := (cs.drop (c + 1)).dropWhile (fun ch => ch == ' ')
        if tokenLen = 2 then
          if token = ("ST").data then
            if stMatch value then ⟨st.context ||| 2, st.url⟩ else ⟨0, st.url⟩
          else st
        else if tokenLen = 6 then
          if token = ("SERVER").data then ⟨st.context ||| 4, st.url⟩ else st
        else if tokenLen = 8 then
          if token = ("LOCATION").data then ⟨st.context ||| 8, String.mk value⟩ else st
        else st
      else if len = 0 then ⟨0, st.url⟩ else st
    | none => if len = 0 then ⟨0, st.url⟩ else st
  else st

/-- The inner read loop: process header lines until a response is
accepted (`_context == 0xF`, returning the captured url) or the lines run
out (the per-socket read timeout fires). -/
def runLinesSt : DCtx → List String → Option String × DCtx
  | st, [] => (none, st)
  | st, l :: ls =>
    if (stepLine st l).context = 15 then (some (stepLine st l).url, stepLine st l)
    else runLinesSt (stepLine st l) ls

/-- The outer discovery loop: each round models one iteration of the
while loop (one multicast M-SEARCH send followed by the lines read before
the socket timeout); `_context` is reset at the top of each round while
the url output parameter persists. The Nat counts sends performed. -/
def findDDAux : String → List (List String) → Option String × Nat
  | _, [] => (none, 0)
  | url0, r :: rs =>
    match runLinesSt ⟨0, url0⟩ r with
    | (some u, _) => (some u, 1)
    | (none, stE) =>
      let next := findDDAux stE.url rs
      (next.1, next.2 + 1)

/-- System::FindDeviceDescription over a scripted sequence of response
rounds (the overall 5 second budget bounds the number of rounds). -/
def findDeviceDescription (rounds : List (List String)) : Option String :=
  (findDDAux ("") rounds).1

/-- Number of multicast sends FindDeviceDescription performs. -/
def findDDSends (rounds : List (List String)) : Nat :=
  (findDDAux ("") rounds).2

/-- Presence of the three URI components Discover checks on the device
description url (URIParser is an external collaborator; only the
non-nullness of Scheme, Host and Port is consulted). -/
structure URIInfo where
  scheme : Bool
  host : Bool
  port : Bool

/-- Environment of one Discover call: the scripted discovery responses,
the URI parse outcome, whether m_cbzgt->Wait(CB_TIMEOUT) was signaled in
time, and the result of the fallback GetZoneGroupState() call. -/
structure DiscoverEnv where
  rounds : List (List String)
  uriParse : String → URIInfo
  waitSignaled : Bool
  fallbackOK : Bool

/-- The check `uri.Scheme() && uri.Host() && uri.Port()`. -/
def uriValid (i : URIInfo) : Bool := i.scheme && i.host && i.port

/-- The discovery stage of System::Discover (lines 71-76): find the
device description and validate the url, before subscribing. -/
def discoverStage (env : DiscoverEnv) : Option String :=
  match findDeviceDescription env.rounds with
  | none => none
  | some url => if uriValid (env.uriParse url) then some url else none

/-- System::Discover: on a validated url, subscribe and wait for the
first topology notification; on timeout fall back on the manual call. -/
def discover (env : DiscoverEnv) : Bool :=
  match discoverStage env with
  | none => false
  | some _ => if env.waitSignaled then true else env.fallbackOK

/-- A zone player: its attributes, among them the group attribute. -/
structure ZP where
  attributes : List (String × String)
deriving DecidableEq

/-- ZonePlayer::GetAttribut: value of a named attribute. -/
def ZP.getAttribut (p : ZP) (k : String) : String :=
  ((p.attributes).lookup k).getD ("")

/-- A zone: its name and Zone::GetCoordinator() (null when no member is
flagged coordinator). -/
structure Zone where
  name : String
  coordinator : Option ZP
deriving DecidableEq

/-- A Player control session constructed for a zone; IsValid() is the
session validity the code tests. -/
structure Player where
  zone : Zone
  valid : Bool
deriving DecidableEq

/-- The ZoneGroupTopology registry: GetZoneList() as an association of
zone ids to zones, and GetZonePlayerList() as the flat player list. -/
structure Topology where
  zones : List (String × Zone)
  zonePlayers : List (String × ZP)
deriving DecidableEq

/-- m_connectedZone: the zone/player pair of the active connection. -/
structure ConnectedZone where
  zone : Option Zone
  player : Option Player
deriving DecidableEq

/-- The System state the connection and listing operations touch:
m_groupTopology (null before a successful Discover) and m_connectedZone. -/
structure SystemState where
  groupTopology : Option Topology
  connectedZone : ConnectedZone
deriving DecidableEq

/-- Environment of a ConnectZone call: m_eventHandler.IsRunning(), the
result of m_eventHandler.Start(), and validity of the Player session
constructed for a given zone. -/
structure ConnEnv where
  isRunning : Bool
  startOK : Bool
  sessionValid : Zone → Bool

/-- System::GetZoneList: zones of the registry whose coordinator is
resolvable. -/
def getZoneList (st : SystemState) : List (String × Zone) :=
  match st.groupTopology with
  | none => []
  | some t => t.zones.filter (fun pr => (pr.2.coordinator).isSome)

/-- System::GetZonePlayerList: the unfiltered zone player list. -/
def getZonePlayerList (st : SystemState) : List (String × ZP) :=
  match st.groupTopology with
  | none => []
  | some t => t.zonePlayers

/-- System::ConnectZone(const ZonePtr&, ...): check the listener, check
the zone, build a Player session, and install it only when valid. -/
def connectZone (env : ConnEnv) (st : SystemState) (zone : Option Zone) :
    Bool × SystemState :=
  if !env.isRunning && !env.startOK then (false, st)
  else
    match zone with
    | none => (false, st)
    | some z =>
      let player : Player := ⟨z, env.sessionValid z⟩
      if player.valid then
        (true, { st with connectedZone := ⟨some z, some player⟩ })
      else (false, st)

/-- System::ConnectZone(const ZonePlayerPtr&, ...): check the listener
and the topology, resolve the player's group attribute in the zone
registry, and defer to the zone overload on the found zone. -/
def connectZonePlayer (env : ConnEnv) (st : SystemState) (zp : Option ZP) :
    Bool × SystemState :=
  if !env.isRunning && !env.startOK then (false, st)
  else
    match st.groupTopology, zp with
    | none, _ => (false, st)
    | some _, none => (false, st)
    | some topo, some p =>
      match (topo.zones).lookup (p.getAttribut ("group")) with
      | none => (false, st)
      | some z => connectZone env st (some z)

/-- Outcome of System::HandleEventMessage on one inbound message:
stop the listener, ignore the message, hand it to the topology state
machine, or reach an out-of-range vector index (undefined behaviour). -/
inductive HEMResult where
  | stopListener
  | ignored
  | forwardToTopology
  | outOfRange
deriving DecidableEq

/-- System::HandleEventMessage over the message's subject list; the
subject indexing mirrors msg->subject[0] and msg->subject[1], with the
out-of-range branch made explicit. -/
def handleEventMessage (subject : List String) : HEMResult :=
  if subject.length > 0 then
    match subject[0]? with
    | none => HEMResult.outOfRange
    | some s0 =>
      if s0 = ("GET") then
        match subject[1]? with
        | none => HEMResult.outOfRange
        | some s1 =>
          if s1 = ("/stop") then HEMResult.stopListener else HEMResult.ignored
      else HEMResult.ignored
  else HEMResult.ignored

/-- Builds a canonical header line: name, colon, a single space, value. -/
def mkHeader (name v : String) : String :=
  String.mk (name.data ++ ':' :: ' ' :: v.data)

/-- The scripted lines of the spec's acceptance test. -/
def lnStatus : String := "HTTP/1.1 200 OK"

def lnST : String := "ST: urn:schemas-upnp-org:device:ZonePlayer:1"

def lnSTBad : String := "ST: some-other-target"

def lnServer : String := "SERVER: x"

def locUrl1 : String := "http://10.0.0.5:1400/xml/device_description.xml"

def locUrl2 : String := "http://10.0.0.6:1400/xml/device_description.xml"

def lnLoc1 : String := "LOCATION: http://10.0.0.5:1400/xml/device_description.xml"

def lnLoc2 : String := "LOCATION: http://10.0.0.6:1400/xml/device_description.xml"

def lnBlank : String := ""

def script1 : List (List String) := [[lnStatus, lnST, lnServer, lnLoc1, lnBlank]]

def scriptC5 : List (List String) :=
  [[lnStatus, lnSTBad, lnServer, lnLoc1, lnBlank, lnStatus, lnST, lnServer, lnLoc2]]

/-- A Discover environment that accepts the spec's scripted sequence,
sees a valid URI, and times out on the notification wait. -/
def envC2 : DiscoverEnv := ⟨script1, fun _ => ⟨true, true, true⟩, false, true⟩

/-- A Discover environment whose single round carries only a status
line, so discovery never accepts a response. -/
def envC7 : DiscoverEnv := ⟨[[lnStatus]], fun _ => ⟨true, true, true⟩, true, true⟩

/-- A zone player whose group attribute names zone Z1. -/
def zpA : ZP := ⟨[("group", "Z1")]⟩

/-- A zone player whose group attribute names the coordinator-less Z2. -/
def zpB : ZP := ⟨[("group", "Z2")]⟩

/-- A zone with a resolvable coordinator. -/
def zoneA : Zone := ⟨"Room", some zpA⟩

/-- A zone with no resolvable coordinator. -/
def zoneB : Zone := ⟨"Hall", none⟩

/-- A registry holding both zones and both players. -/
def topoA : Topology := ⟨[("Z1", zoneA), ("Z2", zoneB)], [("P1", zpA), ("P2", zpB)]⟩

/-- A system state with topoA installed and no connected zone. -/
def stateA : SystemState := ⟨some topoA, ⟨none, none⟩⟩

/-- A connect environment with the listener running and valid sessions. -/
def connEnvA : ConnEnv := ⟨true, true, fun _ => true⟩

/-! ### Helper lemmas -/

/-- A successful status line always opens a fresh context (bitmask 1). -/
theorem step_status200 (st : DCtx) (l : String) (h : isStatus200 l = true) :
    stepLine st l = ⟨1, st.url⟩ := by
  unfold isStatus200 at h
  simp only [Bool.and_eq_true, decide_eq_true_eq] at h
  obtain ⟨h12, h3⟩ := h
  simp only [stepLine]
  rw [if_pos h12, if_pos h3]

/-- From an empty context, a line that is not a successful status line
leaves the state untouched. -/
theorem step_nostatus (st : DCtx) (l : String) (hc : st.context = 0)
    (h : isStatus200 l = false) : stepLine st l = st := by
  by_cases hs : (l.data.length = 15 ∧ l.data.take 4 = httpD)
  · have h200 : statusIs200 l.data = false := by
      cases hb : statusIs200 l.data with
      | false => rfl
      | true =>
        unfold isStatus200 at h
        rw [hb, Bool.and_true] at h
        exact absurd hs (by simpa using h)
    simp only [stepLine]
    rw [if_pos hs, if_neg (by simp [h200])]
    have he : (⟨st.context, st.url⟩ : DCtx) = st := rfl
    rw [hc] at he
    exact he
  · simp only [stepLine]
    rw [if_neg hs, if_neg (by simp [hc])]

/-- A run of lines containing no successful status line, started with an
empty context, accepts nothing and ends in the same state. -/
theorem run_no_status (ls : List String) : ∀ st : DCtx, st.context = 0 →
    (∀ l ∈ ls, isStatus200 l = false) → runLinesSt st ls = (none, st) := by
  induction ls with
  | nil => intro st _ _; rfl
  | cons l ls ih =>
    intro st hc hall
    have h1 : stepLine st l = st := step_nostatus st l hc (hall l (List.mem_cons_self l ls))
    simp only [runLinesSt, h1]
    rw [if_neg (by simp [hc])]
    exact ih st hc (fun x hx => hall x (List.mem_cons_of_mem l hx))

/-- A run accepts only from a state whose context has all four bits set,
and the value it returns is that state's captured url. -/
theorem runLines_accept_sound (ls : List String) : ∀ (st : DCtx) (u : String) (st2 : DCtx),
    runLinesSt st ls = (some u, st2) → st2.context = 15 ∧ u = st2.url := by
  induction ls with
  | nil =>
    intro st u st2 h
    exact absurd h (by simp [runLinesSt])
  | cons l ls ih =>
    intro st u st2 h
    simp only [runLinesSt] at h
    by_cases h15 : (stepLine st l).context = 15
    · rw [if_pos h15] at h
      rw [Prod.mk.injEq] at h
      obtain ⟨ha, hb⟩ := h
      rw [Option.some.injEq] at ha
      exact ⟨hb ▸ h15, by rw [← ha, hb]⟩
    · rw [if_neg h15] at h
      exact ih _ u st2 h

/-- As soon as a line completes the bitmask the loop returns, with the
captured url, without reading further lines. -/
theorem runLines_accept_now (st : DCtx) (l : String) (ls : List String)
    (h : (stepLine st l).context = 15) :
    runLinesSt st (l :: ls) = (some (stepLine st l).url, stepLine st l) := by
  simp only [runLinesSt]
  rw [if_pos h]

/-- Comparing a NUL-terminated value buffer against a NUL-terminated,
NUL-free literal on the value's length plus one byte decides exact
equality. -/
theorem take_nul_eq (t : List Char) (ht : nulC ∉ t) (v : List Char) :
    ((v ++ [nulC]).take (v.length + 1) = (t ++ [nulC]).take (v.length + 1)) ↔ v = t := by
  induction v generalizing t with
  | nil =>
    cases t with
    | nil => simp
    | cons b t' =>
      have hb : nulC ≠ b := fun he => ht (he ▸ List.mem_cons_self b t')
      constructor
      · intro h
        simp only [List.nil_append, List.length_nil, zero_add, List.cons_append,
          List.take_succ_cons, List.take_zero] at h
        exact absurd (List.cons.injEq .. ▸ h).1 hb
      · intro h
        exact absurd h (by simp)
  | cons a v' ih =>
    cases t with
    | nil =>
      constructor
      · intro h
        have hlen := congrArg List.length h
        simp [List.length_take] at hlen
      · intro h
        exact absurd h (by simp)
    | cons b t' =>
      have hb : nulC ∉ t' := fun hm => ht (List.mem_cons_of_mem b hm)
      simp only [List.cons_append, List.length_cons, List.take_succ_cons, List.cons.injEq]
      rw [ih t' hb]

/-- The ST header comparison succeeds exactly on the verbatim search
target. -/
theorem stMatch_iff (v : List Char) : stMatch v = true ↔ v = stTarget.data := by
  unfold stMatch memcmpEq
  rw [beq_iff_eq]
  exact take_nul_eq stTarget.data (by decide) v

/-- dropWhile-space is the identity on a list not starting with a space. -/
theorem dropWhile_no_space (l : List Char) (h : l.head? ≠ some ' ') :
    l.dropWhile (fun ch => ch == ' ') = l := by
  cases l with
  | nil => rfl
  | cons c t =>
    have hc : c ≠ ' ' := fun he => h (by simp [he])
    simp [List.dropWhile_cons, hc]

/-- Processing an ST header whose value does not start with a space, in
an active context: an exact match sets bit 2, anything else resets the
context to zero. -/
theorem step_st_header (st : DCtx) (v : String) (hc : st.context ≠ 0)
    (hh : v.data.head? ≠ some ' ') :
    stepLine st (mkHeader ("ST") v) =
      if v = stTarget then ⟨st.context ||| 2, st.url⟩ else ⟨0, st.url⟩ := by
  have hdata : (mkHeader ("ST") v).data = 'S' :: 'T' :: ':' :: ' ' :: v.data := rfl
  have h4 : ('S' :: 'T' :: ':' :: ' ' :: v.data).take 4 = ['S', 'T', ':', ' '] := rfl
  have hcond : ¬((('S' :: 'T' :: ':' :: ' ' :: v.data).length = 15) ∧
      (('S' :: 'T' :: ':' :: ' ' :: v.data).take 4 = httpD)) := by
    rintro ⟨-, h2⟩
    rw [h4] at h2
    exact absurd h2 (by decide)
  simp only [stepLine, hdata]
  rw [if_neg hcond, if_pos hc]
  show (if stMatch (List.dropWhile (fun ch => ch == ' ') v.data)
      then (⟨st.context ||| 2, st.url⟩ : DCtx) else ⟨0, st.url⟩) =
    if v = stTarget then ⟨st.context ||| 2, st.url⟩ else ⟨0, st.url⟩
  rw [dropWhile_no_space v.data hh]
  by_cases hv : v = stTarget
  · rw [if_pos ((stMatch_iff v.data).mpr (by rw [hv])), if_pos hv]
  · have hm : stMatch v.data = false := by
      cases hsm : stMatch v.data with
      | false => rfl
      | true => exact absurd (String.ext ((stMatch_iff v.data).mp hsm)) hv
    rw [if_neg (by simp [hm]), if_neg hv]

/-! ### Claim theorems -/

/-- C1: FindDeviceDescription accepts a candidate response exactly when
all four context bits are set: a completed bitmask makes the loop return
immediately with the captured LOCATION value, any acceptance happens only
in a state with bitmask 0xF and returns that state's url, and on the
spec's scripted sequence the returned url is the scripted LOCATION. -/
theorem discovery_acceptance :
    (∀ (st : DCtx) (l : String) (ls : List String), (stepLine st l).context = 15 →
      runLinesSt st (l :: ls) = (some (stepLine st l).url, stepLine st l)) ∧
    (∀ (st : DCtx) (ls : List String) (u : String) (st2 : DCtx),
      runLinesSt st ls = (some u, st2) → st2.context = 15 ∧ u = st2.url) ∧
    findDeviceDescription script1 = some locUrl1 := by
  refine ⟨?_, ?_, by decide⟩
  · intro st l ls h
    exact runLines_accept_now st l ls h
  · intro st ls u st2 h
    exact runLines_accept_sound ls st u st2 h

/-- Witness for C1: from a context with status, ST and SERVER bits set,
a LOCATION line completes the bitmask and the loop returns at once. -/
theorem discovery_acceptance_witness :
    runLinesSt ⟨7, lnBlank⟩ [lnLoc1] =
      (some (stepLine ⟨7, lnBlank⟩ lnLoc1).url, stepLine ⟨7, lnBlank⟩ lnLoc1) :=
  discovery_acceptance.1 ⟨7, lnBlank⟩ lnLoc1 [] (by decide)

/-- C2: once the discovery stage has produced a validated url, Discover
returns the fallback GetZoneGroupState result whenever the notification
wait times out, and it returns true exactly when the wait succeeded or
the fallback succeeded; the timeout alone never surfaces as failure. -/
theorem discover_fallback_on_timeout (env : DiscoverEnv) (u : String)
    (h : discoverStage env = some u) :
    (env.waitSignaled = false → discover env = env.fallbackOK) ∧
    (discover env = true ↔ (env.waitSignaled = true ∨ env.fallbackOK = true)) := by
  unfold discover
  rw [h]
  constructor
  · intro hw
    rw [hw]
    rfl
  · cases hw : env.waitSignaled <;> cases hf : env.fallbackOK <;> simp

/-- Witness for C2: in an environment whose wait times out, Discover
returns exactly the fallback result. -/
theorem discover_fallback_on_timeout_witness : discover envC2 = envC2.fallbackOK :=
  (discover_fallback_on_timeout envC2 locUrl1 (by decide)).1 rfl

/-- C3: ConnectZone on a zone leaves ConnectedZone untouched and returns
false when the listener cannot run, when the zone is null, or when the
session is invalid; only a valid session replaces both fields of
ConnectedZone and yields true. -/
theorem connectZone_preserves_state (env : ConnEnv) (st : SystemState) (z : Option Zone) :
    (env.isRunning = false → env.startOK = false → connectZone env st z = (false, st)) ∧
    (z = none → connectZone env st z = (false, st)) ∧
    (∀ zz, z = some zz → env.sessionValid zz = false → connectZone env st z = (false, st)) ∧
    (∀ zz, z = some zz → (env.isRunning = true ∨ env.startOK = true) →
      env.sessionValid zz = true →
      connectZone env st z = (true, { st with connectedZone := ⟨some zz, some ⟨zz, true⟩⟩ })) := by
  refine ⟨?_, ?_, ?_, ?_⟩
  · intro h1 h2
    simp [connectZone, h1, h2]
  · intro hz
    subst hz
    unfold connectZone
    split <;> rfl
  · intro zz hz hv
    subst hz
    unfold connectZone
    split
    · rfl
    · simp [hv]
  · intro zz hz hd hv
    subst hz
    have hb : (!env.isRunning && !env.startOK) = false := by
      rcases hd with h | h <;> simp [h]
    simp [connectZone, hb, hv]

/-- Witness for C3: a valid session on a running listener installs the
zone and the player and returns true. -/
theorem connectZone_preserves_state_witness :
    connectZone connEnvA stateA (some zoneA) =
      (true, { stateA with connectedZone := ⟨some zoneA, some ⟨zoneA, true⟩⟩ }) :=
  (connectZone_preserves_state connEnvA stateA (some zoneA)).2.2.2 zoneA rfl (Or.inl rfl) rfl

/-- C4: GetZoneList returns exactly the registry zones with a resolvable
coordinator, GetZonePlayerList returns the unfiltered player list, and a
player of a coordinator-less zone appears in the player list while its
zone never appears in the zone list. -/
theorem zone_list_coordinator_filter (st : SystemState) (topo : Topology)
    (h : st.groupTopology = some topo) :
    (∀ pr : String × Zone, pr ∈ getZoneList st ↔
      pr ∈ topo.zones ∧ (pr.2.coordinator).isSome = true) ∧
    getZonePlayerList st = topo.zonePlayers ∧
    (∀ zid z pid p, (zid, z) ∈ topo.zones → z.coordinator = none →
      (pid, p) ∈ topo.zonePlayers → p.getAttribut ("group") = zid →
      ((pid, p) ∈ getZonePlayerList st ∧ (zid, z) ∉ getZoneList st)) := by
  refine ⟨?_, ?_, ?_⟩
  · intro pr
    simp [getZoneList, h, List.mem_filter]
  · simp [getZonePlayerList, h]
  · intro zid z pid p hz hco hp hattr
    constructor
    · simp only [getZonePlayerList, h]
      exact hp
    · intro hmem
      simp only [getZoneList, h, List.mem_filter] at hmem
      rw [hco] at hmem
      exact absurd hmem.2 (by decide)

/-- Witness for C4: player P2 of the coordinator-less zone Z2 is in the
player list while Z2 is absent from the zone list. -/
theorem zone_list_coordinator_filter_witness :
    ("P2", zpB) ∈ getZonePlayerList stateA ∧ ("Z2", zoneB) ∉ getZoneList stateA :=
  (zone_list_coordinator_filter stateA topoA rfl).2.2 ("Z2") zoneB ("P2") zpB
    (by decide) rfl (by decide) rfl

/-- C5: an ST header whose value differs from the search target resets
the context to zero, parsing simply continues with the next lines, the
response (no further success status line) is never accepted even if
SERVER and LOCATION follow, and a later valid response in the same
discovery still gets accepted. -/
theorem st_mismatch_resets_context (st : DCtx) (v : String) (ls : List String)
    (hc : st.context ≠ 0) (hh : v.data.head? ≠ some ' ') (hv : v ≠ stTarget) :
    stepLine st (mkHeader ("ST") v) = ⟨0, st.url⟩ ∧
    runLinesSt st (mkHeader ("ST") v :: ls) = runLinesSt ⟨0, st.url⟩ ls ∧
    ((∀ l ∈ ls, isStatus200 l = false) →
      (runLinesSt st (mkHeader ("ST") v :: ls)).1 = none) ∧
    findDeviceDescription scriptC5 = some locUrl2 := by
  have h0 : stepLine st (mkHeader ("ST") v) = ⟨0, st.url⟩ := by
    rw [step_st_header st v hc hh, if_neg hv]
  have h1 : runLinesSt st (mkHeader ("ST") v :: ls) = runLinesSt ⟨0, st.url⟩ ls := by
    simp only [runLinesSt, h0]
    rw [if_neg (by simp)]
  refine ⟨h0, h1, ?_, by decide⟩
  intro hall
  rw [h1, run_no_status ls ⟨0, st.url⟩ rfl hall]

/-- Witness for C5: a mismatching ST value resets an active context. -/
theorem st_mismatch_resets_context_witness :
    stepLine ⟨1, lnBlank⟩ (mkHeader ("ST") ("some-other-target")) = ⟨0, lnBlank⟩ :=
  (st_mismatch_resets_context ⟨1, lnBlank⟩ ("some-other-target") []
    (by decide) (by decide) (by decide)).1

/-- C6: ConnectZone on a zone player fails without mutating state when
there is no topology or when the group attribute resolves to no zone of
the registry; otherwise the call equals the zone-based ConnectZone on
the found zone. -/
theorem connectZonePlayer_resolution (env : ConnEnv) (st : SystemState) (p : ZP) :
    (st.groupTopology = none → connectZonePlayer env st (some p) = (false, st)) ∧
    (∀ topo, st.groupTopology = some topo →
      (topo.zones).lookup (p.getAttribut ("group")) = none →
      connectZonePlayer env st (some p) = (false, st)) ∧
    (∀ topo z, st.groupTopology = some topo →
      (topo.zones).lookup (p.getAttribut ("group")) = some z →
      connectZonePlayer env st (some p) = connectZone env st (some z)) := by
  refine ⟨?_, ?_, ?_⟩
  · intro h
    unfold connectZonePlayer
    rw [h]
    split <;> rfl
  · intro topo ht hl
    simp [connectZonePlayer, ht, hl]
  · intro topo z ht hl
    by_cases hb : (!env.isRunning && !env.startOK) = true
    · unfold connectZonePlayer connectZone
      rw [if_pos hb, if_pos hb]
    · simp [connectZonePlayer, ht, hl, hb]

/-- Witness for C6: player zpA's group attribute resolves to zone Z1 and
the call defers to the zone-based overload on zoneA. -/
theorem connectZonePlayer_resolution_witness :
    connectZonePlayer connEnvA stateA (some zpA) = connectZone connEnvA stateA (some zoneA) :=
  (connectZonePlayer_resolution connEnvA stateA zpA).2.2 topoA zoneA rfl (by decide)

/-- C7: the discovery stage of Discover fails exactly when no scripted
response is accepted within the budget or when the accepted LOCATION
fails URI validation; a failed stage makes Discover return false (no
other termination), and a fruitless discovery re-sends the multicast
search on every loop iteration. -/
theorem discover_failure_cases (env : DiscoverEnv) :
    (discoverStage env = none ↔
      findDeviceDescription env.rounds = none ∨
      (∃ u, findDeviceDescription env.rounds = some u ∧
        uriValid (env.uriParse u) = false)) ∧
    (discoverStage env = none → discover env = false) ∧
    (findDeviceDescription env.rounds = none → findDDSends env.rounds = (env.rounds).length) := by
  refine ⟨?_, ?_, ?_⟩
  · unfold discoverStage
    cases hf : findDeviceDescription env.rounds with
    | none => simp
    | some u =>
      by_cases hu : uriValid (env.uriParse u) = true
      · simp [hu]
      · have hu2 : uriValid (env.uriParse u) = false := by simpa using hu
        simp [hu2]
  · intro h
    unfold discover
    rw [h]
  · have aux : ∀ (rs : List (List String)) (u0 : String),
        (findDDAux u0 rs).1 = none → (findDDAux u0 rs).2 = rs.length := by
      intro rs
      induction rs with
      | nil => intro u0 h; rfl
      | cons r rs ih =>
        intro u0 h
        simp only [findDDAux] at h ⊢
        cases hr : runLinesSt ⟨0, u0⟩ r with
        | mk fst snd =>
          cases fst with
          | some u =>
            rw [hr] at h
            simp at h
          | none =>
            rw [hr] at h
            simp only [List.length_cons]
            simp at h ⊢
            rw [ih snd.url h]
    intro h
    exact aux env.rounds ("") h

/-- Witness for C7: a discovery with one fruitless round performed
exactly one multicast send per loop iteration. -/
theorem discover_failure_cases_witness :
    findDDSends envC7.rounds = (envC7.rounds).length :=
  (discover_failure_cases envC7).2.2 (by decide)

/-- C8, counterexample: a message that is not a GET /stop request is
ignored by HandleEventMessage, not handed to the topology state
machine, refuting the claim's forwarding half at a concrete input. -/
theorem handleEvent_not_forwarded_cex :
    handleEventMessage (["NOTIFY"]) = HEMResult.ignored ∧
    HEMResult.ignored ≠ HEMResult.forwardToTopology :=
  ⟨by decide, by decide⟩

/-- C8, amended: HandleEventMessage stops the listener exactly when the
first two subject tokens are GET and /stop, and it never hands a message
to the topology state machine (all other messages are ignored by it). -/
theorem handleEvent_amended (subject : List String) :
    (handleEventMessage subject = HEMResult.stopListener ↔
      subject.take 2 = ["GET", "/stop"]) ∧
    handleEventMessage subject ≠ HEMResult.forwardToTopology := by
  constructor
  · cases subject with
    | nil => simp [handleEventMessage]
    | cons s0 rest =>
      by_cases h0 : s0 = ("GET")
      · subst h0
        cases rest with
        | nil => simp [handleEventMessage]
        | cons s1 tl =>
          by_cases h1 : s1 = ("/stop")
          · subst h1
            simp [handleEventMessage]
          · simp [handleEventMessage, h1]
      · simp [handleEventMessage, h0]
  · cases subject with
    | nil => simp [handleEventMessage]
    | cons s0 rest =>
      by_cases h0 : s0 = ("GET")
      · subst h0
        cases rest with
        | nil => simp [handleEventMessage]
        | cons s1 tl =>
          by_cases h1 : s1 = ("/stop")
          · subst h1
            simp [handleEventMessage]
          · simp [handleEventMessage, h1]
      · simp [handleEventMessage, h0]

/-- Witness for C8 (amended): the GET /stop request stops the listener. -/
theorem handleEvent_amended_witness :
    handleEventMessage (["GET", "/stop"]) = HEMResult.stopListener :=
  (handleEvent_amended (["GET", "/stop"])).1.mpr (by decide)

/-- C9: a line matching the HTTP-200 status pattern always starts a new
context (bitmask becomes 1), and from an empty context no other line
starts one (the state is left untouched). -/
theorem status_line_starts_context (st : DCtx) (l : String) :
    (isStatus200 l = true → stepLine st l = ⟨1, st.url⟩) ∧
    (st.context = 0 → isStatus200 l = false → stepLine st l = st) :=
  ⟨fun h => step_status200 st l h, fun hc h => step_nostatus st l hc h⟩

/-- Witness for C9: the scripted 200 status line opens a context. -/
theorem status_line_starts_context_witness :
    stepLine ⟨0, lnBlank⟩ lnStatus = ⟨1, lnBlank⟩ :=
  (status_line_starts_context ⟨0, lnBlank⟩ lnStatus).1 (by decide)

/-- C10: on a message whose subject list is exactly the single token
GET, the guard on a positive subject size passes, subject zero matches,
and the read of subject one reaches the out-of-range branch: the
embedded indexing is not within bounds for this input. -/
theorem handleEvent_oob_get : handleEventMessage (["GET"]) = HEMResult.outOfRange := by
  decide

end Noson
